import Mathlib

/-
Verification of the repeat-graph pipeline driver (src/src/repeat_graph/main.cpp).

The driver is pure orchestration: it parses command-line arguments with
getopt (option string "l:t:k:v:hdg"), stores the parsed configuration in
the global Parameters object, loads the input assembly and the
comma-separated list of reads files, and then invokes the pipeline
components (RepeatGraph, GraphProcessor, ReadAligner, MultiplicityInferer,
RepeatResolver, ContigExtender, OutputGenerator) in a fixed straight-line
order.  We embed the driver shallowly: external component calls become
events in a trace, and the outside world (which files load without a
SequenceContainer::ParseException, whether Config::load succeeds, and the
value returned by MultiplicityInferer::getMeanCoverage) is a parameter.
-/

namespace RepeatMain

/-- C isspace character class (the characters skipped by atoi). -/
def isCSpace (c : Char) : Bool :=
  c == ' ' || c == '\t' || c == '\n' || c == '\x0b' || c == '\x0c' || c == '\r'

/-- Value of a list of decimal digit characters. -/
def digitsVal (ds : List Char) : Nat :=
  ds.foldl (fun a c => a * 10 + (c.toNat - '0'.toNat)) 0

/-- The C library atoi: skip whitespace, read an optional sign, then the
longest prefix of decimal digits; 0 when there are no digits. -/
def atoi (s : String) : Int :=
  let cs := s.data.dropWhile (fun c => isCSpace c)
  match cs with
  | '-' :: r => -(digitsVal (r.takeWhile Char.isDigit) : Int)
  | '+' :: r => (digitsVal (r.takeWhile Char.isDigit) : Int)
  | r => (digitsVal (r.takeWhile Char.isDigit) : Int)

/-- Conversion of a C int value to size_t (64-bit unsigned, modulo 2^64),
as in the assignment numThreads = atoi(optarg). -/
def intToSize (i : Int) : Nat := (i % (2 : Int) ^ 64).toNat

/-- Options of optstring "l:t:k:v:hdg" that take an argument. -/
def requiresArg (c : Char) : Bool :=
  c == 'l' || c == 't' || c == 'k' || c == 'v'

/-- Options of optstring "l:t:k:v:hdg" that take no argument. -/
def isFlagOpt (c : Char) : Bool :=
  c == 'h' || c == 'd' || c == 'g'

/-- One value returned by getopt: a recognised option (with its optarg
when the option takes one), or a question-mark result for an unrecognised
option character or a missing option argument.  main.cpp's switch has no
case for the question-mark result, so it is ignored there. -/
inductive OptRet where
  | opt (c : Char) (arg : Option String)
  | unknown (c : Char)
deriving DecidableEq

/-- Scan one option cluster (an argv element after its leading dash).
Returns the options recognised inside the cluster and, when the cluster
ends in an option that requires an argument, that option character (its
argument is the next argv element). -/
def clusterScan : List Char → List OptRet × Option Char
  | [] => ([], none)
  | c :: cs =>
    if requiresArg c then
      if cs.isEmpty then ([], some c)
      else ([OptRet.opt c (some (String.mk cs))], none)
    else
      let r := clusterScan cs
      ((if isFlagOpt c then OptRet.opt c none else OptRet.unknown c) :: r.1, r.2)

/-- An argv element that getopt treats as an option element: it starts
with a dash and is not the bare "-" (the terminator "--" is handled
separately). -/
def isOptElem (a : String) : Bool :=
  match a.data with
  | '-' :: _ :: _ => true
  | _ => false

/-- GNU getopt over the whole argument vector (argv after the program
name) with optstring "l:t:k:v:hdg": returns the sequence of option
results in the order getopt yields them, and the operands (the non-option
arguments, in order; with GNU permutation argc - optind is their count).
A "--" element ends option scanning; an option requiring an argument
takes the next argv element, and when none remains getopt yields the
question-mark result. -/
def scanArgs : List String → List OptRet × List String
  | [] => ([], [])
  | [a] =>
    if a.data = ['-', '-'] then ([], [])
    else if isOptElem a then
      match clusterScan (a.data.drop 1) with
      | (rets, none) => (rets, [])
      | (rets, some c) => (rets ++ [OptRet.unknown c], [])
    else ([], [a])
  | a :: b :: rest =>
    if a.data = ['-', '-'] then ([], b :: rest)
    else if isOptElem a then
      match clusterScan (a.data.drop 1) with
      | (rets, none) =>
        let r := scanArgs (b :: rest)
        (rets ++ r.1, r.2)
      | (rets, some c) =>
        let r := scanArgs rest
        (rets ++ [OptRet.opt c (some b)] ++ r.1, r.2)
    else
      let r := scanArgs (b :: rest)
      (r.1, a :: r.2)

/-- The option variables of parseArgs, with their initial values from
lines 56-60 of main.cpp (numThreads = 1, debug = false,
graphContinue = false, minOverlap = 5000, kmerSize = 15; logFile is the
empty string passed in from main). -/
structure Opts where
  numThreads : Nat
  debug : Bool
  graphContinue : Bool
  minOverlap : Int
  kmerSize : Int
  logFile : String
deriving DecidableEq

/-- The initial option values set at the top of parseArgs. -/
def initOpts : Opts := ⟨1, false, false, 5000, 15, ""⟩

/-- One iteration of the switch in parseArgs' getopt loop, for every
option other than h (which exits): t, v, k read atoi(optarg), l stores
optarg, d and g set their flags; anything else falls through. -/
def applyOpt (c : Char) (a : Option String) (o : Opts) : Opts :=
  if c = 't' then ⟨intToSize (atoi (a.getD "")), o.debug, o.graphContinue, o.minOverlap, o.kmerSize, o.logFile⟩
  else if c = 'v' then ⟨o.numThreads, o.debug, o.graphContinue, atoi (a.getD ""), o.kmerSize, o.logFile⟩
  else if c = 'k' then ⟨o.numThreads, o.debug, o.graphContinue, o.minOverlap, atoi (a.getD ""), o.logFile⟩
  else if c = 'l' then ⟨o.numThreads, o.debug, o.graphContinue, o.minOverlap, o.kmerSize, a.getD ""⟩
  else if c = 'd' then ⟨o.numThreads, true, o.graphContinue, o.minOverlap, o.kmerSize, o.logFile⟩
  else if c = 'g' then ⟨o.numThreads, o.debug, true, o.minOverlap, o.kmerSize, o.logFile⟩
  else o

/-- The getopt loop of parseArgs folded over the option results: none
when an h option is reached (printUsage(); exit(0)), otherwise the final
option values. -/
def processOpts : List OptRet → Opts → Option Opts
  | [], o => some o
  | OptRet.unknown _ :: rs, o => processOpts rs o
  | OptRet.opt c a :: rs, o =>
    if c = 'h' then none else processOpts rs (applyOpt c a o)

/-- The recognised option characters of a sequence of getopt results. -/
def retChars (rs : List OptRet) : List Char :=
  rs.filterMap (fun r =>
    match r with
    | OptRet.opt c _ => some c
    | OptRet.unknown _ => none)

/-- The recognised option characters of an argument vector, in the order
getopt yields them. -/
def optChars (args : List String) : List Char :=
  retChars (scanArgs args).1

/-- The configuration parseArgs hands back to main on success. -/
structure Cfg where
  inAssembly : String
  readsFasta : String
  outFolder : String
  configPath : String
  kmerSize : Int
  minOverlap : Int
  debug : Bool
  numThreads : Nat
  logFile : String
  graphContinue : Bool
deriving DecidableEq

/-- Outcome of parseArgs: help (printUsage(); exit(0) on -h), usage
(printUsage(); return false when the operand count is not 4), or the
parsed configuration. -/
inductive ParseOutcome where
  | help
  | usage
  | ok (cfg : Cfg)
deriving DecidableEq

/-- parseArgs of main.cpp over argv after the program name: run the
getopt loop; on -h exit; then require exactly 4 operands (in_assembly,
reads_files, out_folder, config_path) and return them with the option
values. -/
def parseArgs (args : List String) : ParseOutcome :=
  let s := scanArgs args
  match processOpts s.1 initOpts with
  | none => ParseOutcome.help
  | some o =>
    match s.2 with
    | [a, r, f, c] =>
      ParseOutcome.ok ⟨a, r, f, c, o.kmerSize, o.minOverlap, o.debug,
                       o.numThreads, o.logFile, o.graphContinue⟩
    | _ => ParseOutcome.usage

/-- Modelled from the spec: the helper splitString (from the repository's
common utilities, not under src/) used at main.cpp:184 as
splitString(readsFasta, ',').  The usage text and spec describe
reads_files as a comma-separated list; we model splitting with
std::getline semantics: fields between delimiters (empty fields kept),
except that a trailing delimiter does not produce a final empty field and
the empty string yields no fields.  Auxiliary accumulator pass. -/
def splitAux (d : Char) : List Char → List Char → List String
  | [], cur => [String.mk cur.reverse]
  | c :: cs, cur =>
    if c = d then String.mk cur.reverse :: splitAux d cs []
    else splitAux d cs (c :: cur)

/-- Modelled from the spec: splitString(s, d) — see splitAux. -/
def splitString (s : String) (d : Char) : List String :=
  match s.data with
  | [] => []
  | cs =>
    let parts := splitAux d cs []
    if cs.getLast? = some d then parts.dropLast else parts

/-- Which edge-path decomposition an output call receives: the graph
processor's getEdgesPaths() or the contig extender's
getUnbranchingPaths(). -/
inductive PSrc where
  | edges
  | unbranching
deriving DecidableEq

/-- Observable events of a driver run, in program order: configuration
stores, file loads, and every call into a pipeline component or output
writer.  Output events record the decomposition passed, the out-folder
prefix and the literal file-name suffix appended to it. -/
inductive Event where
  | usagePrinted
  | setParams (minOverlap kmerSize : Int) (numThreads : Nat)
  | configLoad (path : String)
  | logError
  | loadAssembly (path : String)
  | loadReads (path : String)
  | rgNew
  | rgBuild
  | simplify
  | alignReads
  | multInfNew
  | estimateCoverage
  | removeUnsupportedEdges
  | removeUnsupportedConnections
  | separateHaplotypes
  | resolverNew
  | findRepeats
  | resolveRepeats
  | fixLongEdges
  | extenderNew (meanCoverage : Int)
  | generateUnbranchingPaths
  | generateContigs (graphContinue : Bool)
  | outputContigs (folder name : String)
  | outputStatsTable (folder name : String)
  | outputScaffoldConnections (folder name : String)
  | outputDot (src : PSrc) (folder name : String)
  | outputGfa (src : PSrc) (folder name : String)
  | outputFasta (src : PSrc) (folder name : String)
  | dumpRepeats (src : PSrc) (folder name : String)
deriving DecidableEq

/-- The environment of a run: whether Config::load succeeds, which paths
SequenceContainer::loadFromFile loads without a ParseException, and the
(opaque) value MultiplicityInferer::getMeanCoverage() returns. -/
structure World where
  configOk : Bool
  loadOk : String → Bool
  meanCoverage : Int

/-- The reads-loading loop of main.cpp (lines 188-191): each file of the
list is loaded into the shared seqReads container in order; the first
ParseException stops the loop.  Returns the loadFromFile calls made and
whether all succeeded. -/
def loadReadsEvents (w : World) : List String → List Event × Bool
  | [] => ([], true)
  | f :: fs =>
    if w.loadOk f then
      let r := loadReadsEvents w fs
      (Event.loadReads f :: r.1, r.2)
    else ([Event.loadReads f], false)

/-- The events main emits between a successful parse and the sequence
loads: the Parameters stores (lines 171-173) and Config::load
(line 179). -/
def preEvents (cfg : Cfg) : List Event :=
  [Event.setParams cfg.minOverlap cfg.kmerSize cfg.numThreads,
   Event.configLoad cfg.configPath]

/-- The straight-line pipeline of main.cpp lines 199-247: component
construction and every phase and output call, in program order. -/
def pipelineEvents (cfg : Cfg) (w : World) : List Event :=
  [Event.rgNew, Event.rgBuild,
   Event.outputDot PSrc.edges cfg.outFolder "/graph_raw.dot",
   Event.simplify, Event.alignReads,
   Event.multInfNew, Event.estimateCoverage, Event.removeUnsupportedEdges,
   Event.removeUnsupportedConnections, Event.separateHaplotypes,
   Event.resolverNew, Event.findRepeats,
   Event.outputDot PSrc.edges cfg.outFolder "/graph_before_rr.dot",
   Event.outputGfa PSrc.edges cfg.outFolder "/graph_before_rr.gfa",
   Event.outputFasta PSrc.edges cfg.outFolder "/graph_before_rr.fasta",
   Event.resolveRepeats, Event.fixLongEdges,
   Event.outputDot PSrc.edges cfg.outFolder "/graph_after_rr.dot",
   Event.extenderNew w.meanCoverage,
   Event.generateUnbranchingPaths, Event.generateContigs cfg.graphContinue,
   Event.outputContigs cfg.outFolder "/graph_paths.fasta",
   Event.outputStatsTable cfg.outFolder "/contigs_stats.txt",
   Event.outputScaffoldConnections cfg.outFolder "/scaffolds_links.txt",
   Event.dumpRepeats PSrc.unbranching cfg.outFolder "/repeats_dump.txt",
   Event.outputDot PSrc.unbranching cfg.outFolder "/graph_final.dot",
   Event.outputFasta PSrc.unbranching cfg.outFolder "/graph_final.fasta",
   Event.outputGfa PSrc.unbranching cfg.outFolder "/graph_final.gfa"]

/-- The driver: exit status and event trace of a run of main on the given
argument vector (argv after the program name) in the given world.  On -h
parseArgs exits 0 after printing usage; on a wrong operand count main
returns 1 after usage; a Config::load failure is an unhandled exception
(exceptionHandler exits 1); a ParseException from the loads is caught,
logged, and main returns 1; otherwise the whole pipeline runs and main
returns 0. -/
def mainRun (args : List String) (w : World) : Int × List Event :=
  match parseArgs args with
  | ParseOutcome.help => (0, [Event.usagePrinted])
  | ParseOutcome.usage => (1, [Event.usagePrinted])
  | ParseOutcome.ok cfg =>
    if w.configOk then
      if w.loadOk cfg.inAssembly then
        let lr := loadReadsEvents w (splitString cfg.readsFasta ',')
        if lr.2 then
          (0, preEvents cfg ++ Event.loadAssembly cfg.inAssembly :: lr.1
                ++ pipelineEvents cfg w)
        else
          (1, preEvents cfg ++ Event.loadAssembly cfg.inAssembly :: lr.1
                ++ [Event.logError])
      else
        (1, preEvents cfg ++ [Event.loadAssembly cfg.inAssembly, Event.logError])
    else (1, preEvents cfg)

/-- The pipeline phase of an event, following the spec's phase order:
build 0, simplify 1, align 2, infer 3, resolve 4, extend 5.  Events that
are not phase work (configuration, loads, output writes, logging) have no
phase. -/
def phaseOf : Event → Option Nat
  | Event.rgBuild => some 0
  | Event.simplify => some 1
  | Event.alignReads => some 2
  | Event.estimateCoverage => some 3
  | Event.removeUnsupportedEdges => some 3
  | Event.removeUnsupportedConnections => some 3
  | Event.separateHaplotypes => some 3
  | Event.findRepeats => some 4
  | Event.resolveRepeats => some 4
  | Event.fixLongEdges => some 4
  | Event.extenderNew _ => some 5
  | Event.generateUnbranchingPaths => some 5
  | Event.generateContigs _ => some 5
  | _ => none

/-- Rank of the multiplicity-inference passes and resolveRepeats, in
claimed order. -/
def inferRank : Event → Option Nat
  | Event.estimateCoverage => some 0
  | Event.removeUnsupportedEdges => some 1
  | Event.removeUnsupportedConnections => some 2
  | Event.separateHaplotypes => some 3
  | Event.resolveRepeats => some 4
  | _ => none

/-- Rank of the resolver passes, in claimed order. -/
def resolverRank : Event → Option Nat
  | Event.findRepeats => some 0
  | Event.resolveRepeats => some 1
  | Event.fixLongEdges => some 2
  | _ => none

/-- Rank of the events around the unbranching-path decomposition, in
claimed order. -/
def unbranchingRank : Event → Option Nat
  | Event.resolveRepeats => some 0
  | Event.fixLongEdges => some 1
  | Event.generateUnbranchingPaths => some 2
  | Event.generateContigs _ => some 3
  | _ => none

/-- The outputDot calls of a trace: decomposition passed and file-name
suffix, in call order. -/
def dotCallOf : Event → Option (PSrc × String)
  | Event.outputDot s _ n => some (s, n)
  | _ => none

/-- The outputGfa calls of a trace. -/
def gfaCallOf : Event → Option (PSrc × String)
  | Event.outputGfa s _ n => some (s, n)
  | _ => none

/-- The outputFasta calls of a trace. -/
def fastaCallOf : Event → Option (PSrc × String)
  | Event.outputFasta s _ n => some (s, n)
  | _ => none

/-- The dumpRepeats calls of a trace. -/
def dumpCallOf : Event → Option (PSrc × String)
  | Event.dumpRepeats s _ n => some (s, n)
  | _ => none

/-- The coverage-calibration arguments of ContigExtender constructions in
a trace. -/
def extenderArgOf : Event → Option Int
  | Event.extenderNew c => some c
  | _ => none

/-- The arguments of generateContigs calls in a trace. -/
def contigGenArgOf : Event → Option Bool
  | Event.generateContigs g => some g
  | _ => none

/-- The paths passed to seqReads.loadFromFile in a trace. -/
def readsFileOf : Event → Option String
  | Event.loadReads f => some f
  | _ => none

/-- Phase work or an output-file write: everything the run must not do
once input loading has failed (pipeline component construction included). -/
def isPhaseOrOutput : Event → Bool
  | Event.rgNew => true
  | Event.rgBuild => true
  | Event.simplify => true
  | Event.alignReads => true
  | Event.multInfNew => true
  | Event.estimateCoverage => true
  | Event.removeUnsupportedEdges => true
  | Event.removeUnsupportedConnections => true
  | Event.separateHaplotypes => true
  | Event.resolverNew => true
  | Event.findRepeats => true
  | Event.resolveRepeats => true
  | Event.fixLongEdges => true
  | Event.extenderNew _ => true
  | Event.generateUnbranchingPaths => true
  | Event.generateContigs _ => true
  | Event.outputContigs _ _ => true
  | Event.outputStatsTable _ _ => true
  | Event.outputScaffoldConnections _ _ => true
  | Event.outputDot _ _ _ => true
  | Event.outputGfa _ _ _ => true
  | Event.outputFasta _ _ _ => true
  | Event.dumpRepeats _ _ _ => true
  | _ => false

/-- A world in which Config::load succeeds and every sequence file loads
cleanly. -/
def wAll : World := ⟨true, fun _ => true, 7⟩

/-- A world in which the input assembly file raises a ParseException. -/
def wNoAssembly : World := ⟨true, fun s => !(s == "in.fasta"), 7⟩

/-- A four-operand configuration with no options given. -/
def cfg0 : Cfg := ⟨"in.fasta", "reads.fasta", "out", "cfg", 15, 5000, false, 1, "", false⟩

/-- A configuration whose reads_files operand lists two files. -/
def cfgR : Cfg := ⟨"in.fasta", "r1,r2", "out", "cfg", 15, 5000, false, 1, "", false⟩

/-- Every event the reads-loading loop emits is a loadFromFile call on
the shared reads container. -/
theorem mem_loadReadsEvents (w : World) (fs : List String) (e : Event)
    (he : e ∈ (loadReadsEvents w fs).1) : ∃ f, e = Event.loadReads f := by
  induction fs with
  | nil => simp [loadReadsEvents] at he
  | cons f fs ih =>
    by_cases hf : w.loadOk f
    · simp [loadReadsEvents, hf] at he
      rcases he with rfl | he
      · exact ⟨f, rfl⟩
      · exact ih he
    · simp [loadReadsEvents, hf] at he
      exact ⟨f, he⟩

/-- A projection that ignores loadFromFile calls filters the load loop's
events to nothing. -/
theorem filterMap_loadReadsEvents {α : Type} (g : Event → Option α)
    (hg : ∀ f, g (Event.loadReads f) = none) (w : World) (fs : List String) :
    ((loadReadsEvents w fs).1.filterMap g) = [] := by
  rw [List.filterMap_eq_nil_iff]
  intro e he
  obtain ⟨f, rfl⟩ := mem_loadReadsEvents w fs e he
  exact hg f

/-- If some listed reads file fails to load, the load loop reports
failure. -/
theorem loadReadsEvents_false (w : World) (fs : List String)
    (h : ∃ f ∈ fs, w.loadOk f = false) : (loadReadsEvents w fs).2 = false := by
  induction fs with
  | nil => simp at h
  | cons f fs ih =>
    rcases h with ⟨g, hg, hbad⟩
    by_cases hf : w.loadOk f
    · simp [loadReadsEvents, hf]
      rcases List.mem_cons.mp hg with rfl | hg
      · rw [hf] at hbad; exact absurd hbad (by simp)
      · exact ih ⟨g, hg, hbad⟩
    · simp [loadReadsEvents, hf]

/-- When every load succeeds, the load loop emits one loadFromFile call
per listed file, in list order. -/
theorem loadReadsEvents_files (w : World) (fs : List String)
    (h : (loadReadsEvents w fs).2 = true) :
    (loadReadsEvents w fs).1.filterMap readsFileOf = fs := by
  induction fs with
  | nil => simp [loadReadsEvents]
  | cons f fs ih =>
    by_cases hf : w.loadOk f
    · simp only [loadReadsEvents, hf, if_true] at h ⊢
      simp [List.filterMap_cons, readsFileOf, ih h]
    · simp [loadReadsEvents, hf] at h

/-- Case analysis on a driver run: usage/help exit, config-load failure,
assembly-load failure, reads-load failure, or the complete pipeline. -/
theorem mainRun_cases (args : List String) (w : World) :
    (parseArgs args = ParseOutcome.help ∧ mainRun args w = (0, [Event.usagePrinted]))
    ∨ (parseArgs args = ParseOutcome.usage ∧ mainRun args w = (1, [Event.usagePrinted]))
    ∨ ∃ cfg, parseArgs args = ParseOutcome.ok cfg ∧
        (mainRun args w = (1, preEvents cfg)
         ∨ mainRun args w = (1, preEvents cfg ++
              [Event.loadAssembly cfg.inAssembly, Event.logError])
         ∨ mainRun args w = (1, preEvents cfg ++ Event.loadAssembly cfg.inAssembly ::
              (loadReadsEvents w (splitString cfg.readsFasta ',')).1 ++ [Event.logError])
         ∨ ((loadReadsEvents w (splitString cfg.readsFasta ',')).2 = true ∧
            mainRun args w = (0, preEvents cfg ++ Event.loadAssembly cfg.inAssembly ::
              (loadReadsEvents w (splitString cfg.readsFasta ',')).1
              ++ pipelineEvents cfg w))) := by
  cases hp : parseArgs args with
  | help => exact Or.inl ⟨rfl, by simp [mainRun, hp]⟩
  | usage => exact Or.inr (Or.inl ⟨rfl, by simp [mainRun, hp]⟩)
  | ok cfg =>
    refine Or.inr (Or.inr ⟨cfg, rfl, ?_⟩)
    by_cases hc : w.configOk
    · by_cases ha : w.loadOk cfg.inAssembly
      · cases hl : (loadReadsEvents w (splitString cfg.readsFasta ',')).2
        · exact Or.inr (Or.inr (Or.inl (by simp [mainRun, hp, hc, ha, hl])))
        · exact Or.inr (Or.inr (Or.inr ⟨rfl, by simp [mainRun, hp, hc, ha, hl]⟩))
      · exact Or.inr (Or.inl (by simp [mainRun, hp, hc, ha]))
    · exact Or.inl (by simp [mainRun, hp, hc])

/-- Options other than v leave minOverlap unchanged. -/
theorem applyOpt_minOverlap (c : Char) (a : Option String) (o : Opts)
    (h : c ≠ 'v') : (applyOpt c a o).minOverlap = o.minOverlap := by
  unfold applyOpt
  split_ifs <;> simp_all

/-- Options other than k leave kmerSize unchanged. -/
theorem applyOpt_kmerSize (c : Char) (a : Option String) (o : Opts)
    (h : c ≠ 'k') : (applyOpt c a o).kmerSize = o.kmerSize := by
  unfold applyOpt
  split_ifs <;> simp_all

/-- Options other than t leave numThreads unchanged. -/
theorem applyOpt_numThreads (c : Char) (a : Option String) (o : Opts)
    (h : c ≠ 't') : (applyOpt c a o).numThreads = o.numThreads := by
  unfold applyOpt
  split_ifs <;> simp_all

/-- When an option letter never occurs, the getopt loop leaves the
corresponding variable at its initial value. -/
theorem processOpts_defaults (rs : List OptRet) : ∀ (o o' : Opts),
    processOpts rs o = some o' →
    ('v' ∉ retChars rs → o'.minOverlap = o.minOverlap)
    ∧ ('k' ∉ retChars rs → o'.kmerSize = o.kmerSize)
    ∧ ('t' ∉ retChars rs → o'.numThreads = o.numThreads) := by
  induction rs with
  | nil =>
    intro o o' h
    simp [processOpts] at h
    subst h
    exact ⟨fun _ => rfl, fun _ => rfl, fun _ => rfl⟩
  | cons r rs ih =>
    intro o o' h
    cases r with
    | unknown c =>
      simp only [processOpts] at h
      simpa [retChars, List.filterMap_cons] using ih o o' h
    | opt c a =>
      by_cases hc : c = 'h'
      · simp [processOpts, hc] at h
      · simp only [processOpts, if_neg hc] at h
        have hr := ih (applyOpt c a o) o' h
        simp only [retChars, List.filterMap_cons, List.mem_cons] at hr ⊢
        refine ⟨fun hv => ?_, fun hk => ?_, fun ht => ?_⟩
        · push_neg at hv
          rw [hr.1 hv.2, applyOpt_minOverlap c a o (fun hcv => hv.1 hcv.symm)]
        · push_neg at hk
          rw [hr.2.1 hk.2, applyOpt_kmerSize c a o (fun hck => hk.1 hck.symm)]
        · push_neg at ht
          rw [hr.2.2 ht.2, applyOpt_numThreads c a o (fun hct => ht.1 hct.symm)]

/-- The getopt loop exits (the h case) exactly when an h option occurs. -/
theorem processOpts_eq_none (rs : List OptRet) : ∀ o : Opts,
    processOpts rs o = none ↔ 'h' ∈ retChars rs := by
  induction rs with
  | nil => intro o; simp [processOpts, retChars]
  | cons r rs ih =>
    intro o
    cases r with
    | unknown c => simpa [processOpts, retChars, List.filterMap_cons] using ih o
    | opt c a =>
      by_cases hc : c = 'h'
      · simp [processOpts, hc, retChars, List.filterMap_cons]
      · simp only [processOpts, if_neg hc, retChars, List.filterMap_cons,
                   List.mem_cons]
        rw [ih (applyOpt c a o)]
        simp only [retChars]
        constructor
        · exact fun hh => Or.inr hh
        · rintro (hh | hh)
          · exact absurd hh.symm hc
          · exact hh

/-- parseArgs takes the help exit exactly when an h option occurs. -/
theorem parseArgs_help_iff (args : List String) :
    parseArgs args = ParseOutcome.help ↔ 'h' ∈ optChars args := by
  cases hpo : processOpts (scanArgs args).1 initOpts with
  | none =>
    have h1 : parseArgs args = ParseOutcome.help := by simp [parseArgs, hpo]
    exact iff_of_true h1 ((processOpts_eq_none _ initOpts).mp hpo)
  | some o =>
    have hh : 'h' ∉ optChars args := by
      intro hmem
      simp only [optChars] at hmem
      rw [← processOpts_eq_none _ initOpts] at hmem
      rw [hpo] at hmem
      cases hmem
    simp only [parseArgs, hpo]
    refine iff_of_false ?_ hh
    rcases hargs : (scanArgs args).2 with _ | ⟨a, _ | ⟨b, _ | ⟨c, _ | ⟨d, _ | _⟩⟩⟩⟩ <;>
      simp

/-- C1: the driver runs the pipeline phases in the fixed order build,
simplify, align, infer, resolve, extend.  The phase projection of any
run's trace is either empty (the run never reached the assembly stage) or
exactly the fully ordered sequence: rg.build() before proc.simplify(),
before aligner.alignReads(), before the four MultiplicityInferer passes,
before the resolver's three passes, before the ContigExtender calls — so
no later phase begins before the preceding one has been invoked. -/
theorem C1_phase_order (args : List String) (w : World) :
    (mainRun args w).2.filterMap phaseOf = []
    ∨ (mainRun args w).2.filterMap phaseOf =
        [0, 1, 2, 3, 3, 3, 3, 4, 4, 4, 5, 5, 5] := by
  rcases mainRun_cases args w with ⟨_, h⟩ | ⟨_, h⟩ | ⟨cfg, _, h | h | h | ⟨_, h⟩⟩ <;>
    rw [h] <;>
    simp [preEvents, pipelineEvents, List.filterMap_append, List.filterMap_cons,
          phaseOf, filterMap_loadReadsEvents phaseOf (fun f => rfl) w]

/-- C4: the four multiplicity-inference passes estimateCoverage,
removeUnsupportedEdges, removeUnsupportedConnections and
separateHaplotypes are invoked in that order, strictly before
resolver.resolveRepeats(), in every run that reaches the resolution
phase: the projection of any run's trace onto these five calls is either
empty or exactly the claimed sequence. -/
theorem C4_inference_before_resolution (args : List String) (w : World) :
    (mainRun args w).2.filterMap inferRank = []
    ∨ (mainRun args w).2.filterMap inferRank = [0, 1, 2, 3, 4] := by
  rcases mainRun_cases args w with ⟨_, h⟩ | ⟨_, h⟩ | ⟨cfg, _, h | h | h | ⟨_, h⟩⟩ <;>
    rw [h] <;>
    simp [preEvents, pipelineEvents, List.filterMap_append, List.filterMap_cons,
          inferRank, filterMap_loadReadsEvents inferRank (fun f => rfl) w]

/-- C5: the resolver's passes run in the order findRepeats, then
resolveRepeats, then fixLongEdges: the projection of any run's trace onto
these three calls is either empty or exactly that sequence, so
fixLongEdges is invoked only after resolveRepeats, and findRepeats before
both. -/
theorem C5_resolver_pass_order (args : List String) (w : World) :
    (mainRun args w).2.filterMap resolverRank = []
    ∨ (mainRun args w).2.filterMap resolverRank = [0, 1, 2] := by
  rcases mainRun_cases args w with ⟨_, h⟩ | ⟨_, h⟩ | ⟨cfg, _, h | h | h | ⟨_, h⟩⟩ <;>
    rw [h] <;>
    simp [preEvents, pipelineEvents, List.filterMap_append, List.filterMap_cons,
          resolverRank, filterMap_loadReadsEvents resolverRank (fun f => rfl) w]

/-- C6: in every run reaching the contig-generation phase, the
ContigExtender is constructed with the value of
multInf.getMeanCoverage() as its coverage-calibration argument: either no
ContigExtender is constructed and no generateContigs call happens, or the
one ContigExtender construction receives exactly the world's mean
coverage and generateContigs runs. -/
theorem C6_extender_mean_coverage (args : List String) (w : World) :
    ((mainRun args w).2.filterMap extenderArgOf = []
      ∧ (mainRun args w).2.filterMap contigGenArgOf = [])
    ∨ (∃ g, (mainRun args w).2.filterMap extenderArgOf = [w.meanCoverage]
      ∧ (mainRun args w).2.filterMap contigGenArgOf = [g]) := by
  rcases mainRun_cases args w with ⟨_, h⟩ | ⟨_, h⟩ | ⟨cfg, _, h | h | h | ⟨_, h⟩⟩
  · exact Or.inl ⟨by rw [h]; rfl, by rw [h]; rfl⟩
  · exact Or.inl ⟨by rw [h]; rfl, by rw [h]; rfl⟩
  · exact Or.inl ⟨by rw [h]; rfl, by rw [h]; rfl⟩
  · exact Or.inl ⟨by rw [h]; rfl, by rw [h]; rfl⟩
  · refine Or.inl ⟨?_, ?_⟩ <;> rw [h] <;>
      simp [preEvents, List.filterMap_append, List.filterMap_cons, extenderArgOf,
            contigGenArgOf,
            filterMap_loadReadsEvents extenderArgOf (fun f => rfl) w,
            filterMap_loadReadsEvents contigGenArgOf (fun f => rfl) w]
  · refine Or.inr ⟨cfg.graphContinue, ?_, ?_⟩ <;> rw [h] <;>
      simp [preEvents, pipelineEvents, List.filterMap_append, List.filterMap_cons,
            extenderArgOf, contigGenArgOf,
            filterMap_loadReadsEvents extenderArgOf (fun f => rfl) w,
            filterMap_loadReadsEvents contigGenArgOf (fun f => rfl) w]

/-- C7: extender.generateUnbranchingPaths() runs after resolveRepeats and
fixLongEdges and before generateContigs (first conjunct), and the
unbranching-path decomposition (extender.getUnbranchingPaths()) is the
argument of the repeats dump and of the final DOT/FASTA/GFA outputs: the
dump calls and the DOT/FASTA/GFA calls of any run are either absent or
exactly as in the source, with the graph_final outputs and the repeats
dump receiving the unbranching paths (the earlier outputs receive the
processor's edge paths). -/
theorem C7_unbranching_paths_outputs (args : List String) (w : World) :
    ((mainRun args w).2.filterMap unbranchingRank = []
      ∨ (mainRun args w).2.filterMap unbranchingRank = [0, 1, 2, 3])
    ∧ ((mainRun args w).2.filterMap dumpCallOf = []
      ∨ (mainRun args w).2.filterMap dumpCallOf =
          [(PSrc.unbranching, "/repeats_dump.txt")])
    ∧ ((mainRun args w).2.filterMap dotCallOf = []
      ∨ (mainRun args w).2.filterMap dotCallOf =
          [(PSrc.edges, "/graph_raw.dot"), (PSrc.edges, "/graph_before_rr.dot"),
           (PSrc.edges, "/graph_after_rr.dot"),
           (PSrc.unbranching, "/graph_final.dot")])
    ∧ ((mainRun args w).2.filterMap fastaCallOf = []
      ∨ (mainRun args w).2.filterMap fastaCallOf =
          [(PSrc.edges, "/graph_before_rr.fasta"),
           (PSrc.unbranching, "/graph_final.fasta")])
    ∧ ((mainRun args w).2.filterMap gfaCallOf = []
      ∨ (mainRun args w).2.filterMap gfaCallOf =
          [(PSrc.edges, "/graph_before_rr.gfa"),
           (PSrc.unbranching, "/graph_final.gfa")]) := by
  rcases mainRun_cases args w with ⟨_, h⟩ | ⟨_, h⟩ | ⟨cfg, _, h | h | h | ⟨_, h⟩⟩ <;>
    refine ⟨?_, ?_, ?_, ?_, ?_⟩ <;> rw [h] <;>
    first
    | (left
       simp [preEvents, List.filterMap_append, List.filterMap_cons,
             unbranchingRank, dumpCallOf, dotCallOf, fastaCallOf, gfaCallOf,
             filterMap_loadReadsEvents unbranchingRank (fun f => rfl) w,
             filterMap_loadReadsEvents dumpCallOf (fun f => rfl) w,
             filterMap_loadReadsEvents dotCallOf (fun f => rfl) w,
             filterMap_loadReadsEvents fastaCallOf (fun f => rfl) w,
             filterMap_loadReadsEvents gfaCallOf (fun f => rfl) w]
       done)
    | (right
       simp [preEvents, pipelineEvents, List.filterMap_append, List.filterMap_cons,
             unbranchingRank, dumpCallOf, dotCallOf, fastaCallOf, gfaCallOf,
             filterMap_loadReadsEvents unbranchingRank (fun f => rfl) w,
             filterMap_loadReadsEvents dumpCallOf (fun f => rfl) w,
             filterMap_loadReadsEvents dotCallOf (fun f => rfl) w,
             filterMap_loadReadsEvents fastaCallOf (fun f => rfl) w,
             filterMap_loadReadsEvents gfaCallOf (fun f => rfl) w]
       done)

/-- C2: when the corresponding options are absent the injected
configuration values are exactly minimum overlap 5000, k-mer size 15 and
one worker thread (parseArgs initializes these defaults), and in every
run main stores the possibly overridden values into the global Parameters
as the very first action after parsing — in particular before the
RepeatGraph is created. -/
theorem C2_default_configuration (args : List String) (w : World) (cfg : Cfg)
    (hp : parseArgs args = ParseOutcome.ok cfg) :
    ('v' ∉ optChars args → cfg.minOverlap = 5000)
    ∧ ('k' ∉ optChars args → cfg.kmerSize = 15)
    ∧ ('t' ∉ optChars args → cfg.numThreads = 1)
    ∧ (mainRun args w).2.head? =
        some (Event.setParams cfg.minOverlap cfg.kmerSize cfg.numThreads) := by
  have hfields : ∃ o, processOpts (scanArgs args).1 initOpts = some o ∧
      cfg.minOverlap = o.minOverlap ∧ cfg.kmerSize = o.kmerSize ∧
      cfg.numThreads = o.numThreads := by
    simp only [parseArgs] at hp
    cases hpo : processOpts (scanArgs args).1 initOpts with
    | none => rw [hpo] at hp; cases hp
    | some o =>
      rw [hpo] at hp
      refine ⟨o, rfl, ?_⟩
      rcases hargs : (scanArgs args).2 with _ | ⟨a, _ | ⟨b, _ | ⟨c, _ | ⟨d, _ | _⟩⟩⟩⟩ <;>
        rw [hargs] at hp <;> cases hp <;> simp
  obtain ⟨o, hpo, hmo, hks, hnt⟩ := hfields
  have hdef := processOpts_defaults (scanArgs args).1 initOpts o hpo
  refine ⟨fun hv => ?_, fun hk => ?_, fun ht => ?_, ?_⟩
  · rw [hmo, hdef.1 hv]; rfl
  · rw [hks, hdef.2.1 hk]; rfl
  · rw [hnt, hdef.2.2 ht]; rfl
  · rcases mainRun_cases args w with ⟨hq, h⟩ | ⟨hq, h⟩ | ⟨cfg', hq, h | h | h | ⟨_, h⟩⟩
    · rw [hp] at hq; cases hq
    · rw [hp] at hq; cases hq
    all_goals (rw [hp] at hq; injection hq with hq; subst hq; rw [h]; rfl)

/-- Witness for C2 at the argument vector with four operands and no
options, in the all-loads-succeed world. -/
theorem C2_default_configuration_witness :
    cfg0.minOverlap = 5000 ∧ cfg0.kmerSize = 15 ∧ cfg0.numThreads = 1 ∧
    (mainRun ["in.fasta", "reads.fasta", "out", "cfg"] wAll).2.head? =
      some (Event.setParams cfg0.minOverlap cfg0.kmerSize cfg0.numThreads) := by
  obtain ⟨h1, h2, h3, h4⟩ :=
    C2_default_configuration ["in.fasta", "reads.fasta", "out", "cfg"] wAll cfg0
      (by decide)
  exact ⟨h1 (by decide), h2 (by decide), h3 (by decide), h4⟩

/-- C3: when loading the input assembly or any reads file raises a
SequenceContainer::ParseException, main logs the error and returns exit
code 1, and the trace contains no pipeline-component construction, no
phase call, and no output-file write. -/
theorem C3_parse_error_aborts (args : List String) (w : World) (cfg : Cfg)
    (hp : parseArgs args = ParseOutcome.ok cfg) (hc : w.configOk = true)
    (hbad : w.loadOk cfg.inAssembly = false
      ∨ ∃ f ∈ splitString cfg.readsFasta ',', w.loadOk f = false) :
    (mainRun args w).1 = 1 ∧ Event.logError ∈ (mainRun args w).2
    ∧ ∀ e ∈ (mainRun args w).2, isPhaseOrOutput e = false := by
  by_cases ha : w.loadOk cfg.inAssembly
  · rcases hbad with hbad | hbad
    · rw [ha] at hbad; cases hbad
    · have hl := loadReadsEvents_false w _ hbad
      have h : mainRun args w = (1, preEvents cfg ++ Event.loadAssembly cfg.inAssembly ::
          (loadReadsEvents w (splitString cfg.readsFasta ',')).1 ++ [Event.logError]) := by
        simp [mainRun, hp, hc, ha, hl]
      rw [h]
      refine ⟨rfl, by simp, ?_⟩
      intro e he
      simp only [preEvents, List.cons_append, List.nil_append, List.mem_cons,
                 List.mem_append, List.mem_singleton, List.not_mem_nil,
                 or_false] at he
      rcases he with rfl | rfl | rfl | he | rfl
      · rfl
      · rfl
      · rfl
      · obtain ⟨f, rfl⟩ := mem_loadReadsEvents w _ e he
        rfl
      · rfl
  · have h : mainRun args w =
        (1, preEvents cfg ++ [Event.loadAssembly cfg.inAssembly, Event.logError]) := by
      simp [mainRun, hp, hc, ha]
    rw [h]
    refine ⟨rfl, by simp, ?_⟩
    intro e he
    simp only [preEvents, List.cons_append, List.nil_append, List.mem_cons,
               List.mem_singleton, List.not_mem_nil, or_false] at he
    rcases he with rfl | rfl | rfl | rfl
    · rfl
    · rfl
    · rfl
    · rfl

/-- Witness for C3: the assembly file fails to load. -/
theorem C3_parse_error_aborts_witness :
    (mainRun ["in.fasta", "reads.fasta", "out", "cfg"] wNoAssembly).1 = 1
    ∧ Event.logError ∈ (mainRun ["in.fasta", "reads.fasta", "out", "cfg"] wNoAssembly).2
    ∧ ∀ e ∈ (mainRun ["in.fasta", "reads.fasta", "out", "cfg"] wNoAssembly).2,
        isPhaseOrOutput e = false :=
  C3_parse_error_aborts ["in.fasta", "reads.fasta", "out", "cfg"] wNoAssembly cfg0
    (by decide) rfl (Or.inl (by decide))

/-- C8: when the getopt scan yields no h option and the number of
remaining (non-option) arguments differs from 4, parseArgs prints the
usage message and returns false and main returns exit code 1, with no
file loaded and no pipeline component constructed (the trace holds the
usage message only). -/
theorem C8_operand_count (args : List String) (w : World)
    (hh : 'h' ∉ optChars args) (hlen : (scanArgs args).2.length ≠ 4) :
    parseArgs args = ParseOutcome.usage
    ∧ mainRun args w = (1, [Event.usagePrinted]) := by
  obtain ⟨o, hpo⟩ : ∃ o, processOpts (scanArgs args).1 initOpts = some o := by
    cases hpo : processOpts (scanArgs args).1 initOpts with
    | none => exact absurd ((processOpts_eq_none _ initOpts).mp hpo) hh
    | some o => exact ⟨o, rfl⟩
  have hu : parseArgs args = ParseOutcome.usage := by
    simp only [parseArgs, hpo]
    rcases hargs : (scanArgs args).2 with _ | ⟨a, _ | ⟨b, _ | ⟨c, _ | ⟨d, _ | ⟨e, rest⟩⟩⟩⟩⟩
    · rfl
    · rfl
    · rfl
    · rfl
    · rw [hargs] at hlen; simp at hlen
    · rfl
  exact ⟨hu, by simp [mainRun, hu]⟩

/-- Witness for C8 at a two-operand argument vector. -/
theorem C8_operand_count_witness :
    parseArgs ["x", "y"] = ParseOutcome.usage
    ∧ mainRun ["x", "y"] wAll = (1, [Event.usagePrinted]) :=
  C8_operand_count ["x", "y"] wAll (by decide) (by decide)

/-- C9: the reads_files operand is split on commas and every listed file
is loaded, in list order, into the single shared seqReads container: in
any run that exits 0, the loadFromFile calls on the reads container are
exactly the comma-separated fields of the operand, in order. -/
theorem C9_reads_comma_split (args : List String) (w : World) (cfg : Cfg)
    (hp : parseArgs args = ParseOutcome.ok cfg) (h0 : (mainRun args w).1 = 0) :
    (mainRun args w).2.filterMap readsFileOf = splitString cfg.readsFasta ',' := by
  rcases mainRun_cases args w with ⟨hq, h⟩ | ⟨hq, h⟩ | ⟨cfg', hq, h | h | h | ⟨hl, h⟩⟩
  · rw [hp] at hq; cases hq
  · rw [hp] at hq; cases hq
  · rw [h] at h0; simp at h0
  · rw [h] at h0; simp at h0
  · rw [h] at h0; simp at h0
  · rw [hp] at hq
    injection hq with hq
    subst hq
    rw [h]
    simp [preEvents, pipelineEvents, List.filterMap_append, List.filterMap_cons,
          readsFileOf, loadReadsEvents_files w _ hl]

/-- Witness for C9 with a two-file reads list. -/
theorem C9_reads_comma_split_witness :
    (mainRun ["in.fasta", "r1,r2", "out", "cfg"] wAll).2.filterMap readsFileOf =
      splitString "r1,r2" ',' :=
  C9_reads_comma_split ["in.fasta", "r1,r2", "out", "cfg"] wAll cfgR (by decide) (by decide)

/-- C10: an h option makes the process print the usage message and exit
with status 0 immediately: the run's trace is the usage message alone —
no positional-argument validation, no file open, no pipeline component
construction. -/
theorem C10_help_exits_zero (args : List String) (w : World)
    (hh : 'h' ∈ optChars args) :
    mainRun args w = (0, [Event.usagePrinted]) := by
  have hp : parseArgs args = ParseOutcome.help := (parseArgs_help_iff args).mpr hh
  simp [mainRun, hp]

/-- Witness for C10 at the argument vector ["-h"]. -/
theorem C10_help_exits_zero_witness :
    mainRun ["-h"] wAll = (0, [Event.usagePrinted]) :=
  C10_help_exits_zero ["-h"] wAll (by decide)

end RepeatMain
